import Mathlib

/-!
Verification of the Hypixel guild cache service.

The definitions below are a shallow embedding of the repository's two
source variants (`src/index.js` and the unnamed variant): the SQLite
tables become lists of rows keyed by their primary key, the in-memory
`stats` object becomes an explicit `Stats` record, remote HTTP calls are
driven by an `HttpResult` argument describing the transport outcome, and
the fallibility of individual database statements is driven by explicit
boolean failure flags mirroring each statement's callback.
-/

/-- A row of the `guilds` table. -/
structure GuildRow where
  guild_id : String
  name : String
  tag : String
  last_scan : Nat
  avg_sb_level : Option ℚ
deriving DecidableEq

/-- A row of the `members` table. -/
structure MemberRow where
  uuid : String
  guild_id : String
  rank : String
  last_scan : Nat
  highest_sb_level : Option ℚ
  level_last_updated : Option Nat
deriving DecidableEq

/-- A row of the `players_no_guild` table (and of `unguilded_players`,
which has the same key and timestamp shape). -/
structure NoGuildRow where
  uuid : String
  last_scan : Nat
deriving DecidableEq

/-- The persistent store: the tables created by the sources.
`unguilded_players` is the extra table created by `src/index.js` and read
by its `GET /unguilded` handler. -/
structure Store where
  guilds : List GuildRow
  members : List MemberRow
  players_no_guild : List NoGuildRow
  unguilded_players : List NoGuildRow
deriving DecidableEq

/-- The in-memory `stats` object. -/
structure Stats where
  totalGuildsTracked : Nat
  guildsAddedTimestamps : List Nat
  hypixelApiRequestTimestamps : List Nat
  dbGuildRequestsTimestamps : List Nat
deriving DecidableEq

/-- One member entry of a fetched guild payload. -/
structure GuildMemberData where
  uuid : String
  rank : String
deriving DecidableEq

/-- A guild payload as returned by the remote guild endpoint. -/
structure Guild where
  _id : String
  name : String
  tag : Option String
  members : List GuildMemberData
deriving DecidableEq

/-- Transport outcome of one `axios.get`: either the response body
arrives, or the request throws at the transport / non-2xx level. -/
inductive HttpResult (α : Type) where
  | ok (data : α)
  | transportError
deriving DecidableEq

/-- Body of the remote guild endpoint response. -/
structure GuildResponse where
  success : Bool
  guild : Option Guild
deriving DecidableEq

/-- The uuid normalization: remove every hyphen character. -/
def stripHyphens (s : String) : String :=
  String.mk (s.data.filter (fun c => c ≠ '-'))

/-- `SELECT * FROM members WHERE uuid = ?` (primary-key lookup). -/
def findMember (s : Store) (uuid : String) : Option MemberRow :=
  s.members.find? (fun m => m.uuid == uuid)

/-- `SELECT * FROM players_no_guild WHERE uuid = ?`. -/
def findNoGuild (s : Store) (uuid : String) : Option NoGuildRow :=
  s.players_no_guild.find? (fun r => r.uuid == uuid)

/-- Does a `members` row for this uuid exist? -/
def memberExists (s : Store) (uuid : String) : Bool :=
  s.members.any (fun m => m.uuid == uuid)

/-- Does a `players_no_guild` row for this uuid exist? -/
def noGuildExists (s : Store) (uuid : String) : Bool :=
  s.players_no_guild.any (fun r => r.uuid == uuid)

/-- `GET /unguilded`: `SELECT * FROM unguilded_players`. -/
def getUnguilded (s : Store) : List NoGuildRow :=
  s.unguilded_players

/-- Number of timestamps the fetch functions have pushed so far. -/
def apiCallCount (st : Stats) : Nat :=
  st.hypixelApiRequestTimestamps.length

/-- `fetchGuildByUUID`: one `axios.get` of the guild endpoint.  The push
onto `stats.hypixelApiRequestTimestamps` happens after the `await`, so a
transport failure propagates before the push; a body that arrives is
pushed and then inspected (`success && guild` yields the guild, anything
else yields `null`). -/
def fetchGuildByUUID (resp : HttpResult GuildResponse) (tMs : Nat)
    (st : Stats) : Except Unit (Option Guild) × Stats :=
  match resp with
  | HttpResult.transportError => (Except.error (), st)
  | HttpResult.ok d =>
      let st1 := { st with hypixelApiRequestTimestamps :=
                    st.hypixelApiRequestTimestamps ++ [tMs] }
      match d.guild with
      | some g => if d.success then (Except.ok (some g), st1) else (Except.ok none, st1)
      | none => (Except.ok none, st1)

/-- Number of counter increments one transport outcome produces. -/
def apiIncrements {α : Type} : HttpResult α → Nat
  | HttpResult.ok _ => 1
  | HttpResult.transportError => 0

/-- Upsert into `guilds` by `guild_id`: on conflict only `name`, `tag`
and `last_scan` are updated (`avg_sb_level` is preserved); a fresh insert
leaves `avg_sb_level` NULL. -/
def upsertGuildRow (gs : List GuildRow) (g : Guild) (t : Nat) : List GuildRow :=
  if gs.any (fun r => r.guild_id == g._id) then
    gs.map (fun r =>
      if r.guild_id == g._id then
        { r with name := g.name, tag := g.tag.getD "", last_scan := t }
      else r)
  else gs ++ [⟨g._id, g.name, g.tag.getD "", t, none⟩]

/-- Upsert into `members` by `uuid`: on conflict only `guild_id`, `rank`
and `last_scan` are updated (the level columns are preserved). -/
def upsertMemberRow (ms : List MemberRow) (uuid gid rank : String)
    (t : Nat) : List MemberRow :=
  if ms.any (fun m => m.uuid == uuid) then
    ms.map (fun m =>
      if m.uuid == uuid then
        { m with guild_id := gid, rank := rank, last_scan := t }
      else m)
  else ms ++ [⟨uuid, gid, rank, t, none, none⟩]

/-- The member loop of `upsertGuild`: one `stmt.run` per payload member. -/
def upsertMembersList (ms : List MemberRow) (g : Guild) (t : Nat) : List MemberRow :=
  g.members.foldl
    (fun acc m => upsertMemberRow acc (stripHyphens m.uuid) g._id m.rank t) ms

/-- `upsertGuild`: the guild-row insert may fail (its callback rejects
and nothing else runs); otherwise the member rows are written, the
`totalGuildsTracked` counter is incremented and a timestamp is appended
unconditionally, and finally `stmt.finalize` may reject (after the writes
and counter updates already happened).  Returns the new store, the new
stats, and whether the promise resolved. -/
def upsertGuildRun (gFail fFail : Bool) (g : Guild) (t tMs : Nat)
    (s : Store) (st : Stats) : Store × Stats × Bool :=
  if gFail then (s, st, false)
  else
    let s1 := { s with guilds := upsertGuildRow s.guilds g t,
                       members := upsertMembersList s.members g t }
    let st1 := { st with totalGuildsTracked := st.totalGuildsTracked + 1,
                         guildsAddedTimestamps := st.guildsAddedTimestamps ++ [tMs] }
    (s1, st1, !fFail)

/-- `removePlayerFromOldGuild`: looks up the member row; when it exists
under a different guild the row is deleted.  Either statement may fail,
rejecting the promise.  Returns the store and whether it resolved. -/
def removePlayerFromOldGuild (getFails delFails : Bool) (uuid gid : String)
    (s : Store) : Store × Bool :=
  if getFails then (s, false)
  else
    match findMember s uuid with
    | some row =>
        if row.guild_id ≠ gid then
          if delFails then (s, false)
          else ({ s with members := s.members.filter (fun m => !(m.uuid == uuid)) }, true)
        else (s, true)
    | none => (s, true)

/-- Upsert into `players_no_guild` by `uuid` (`ON CONFLICT DO UPDATE SET
last_scan=excluded.last_scan`). -/
def upsertNoGuildRow (l : List NoGuildRow) (uuid : String) (t : Nat) : List NoGuildRow :=
  if l.any (fun r => r.uuid == uuid) then
    l.map (fun r => if r.uuid == uuid then { r with last_scan := t } else r)
  else l ++ [⟨uuid, t⟩]

/-- Which statements of one scan fail, mirroring each fallible database
call inside `scanPlayerGuild` (the two `db.run`s without callback fail
silently; the awaited promises reject). -/
structure ScanErr where
  noGuildInsertFails : Bool
  noGuildDeleteFails : Bool
  rpogGetFails : Bool
  rpogDeleteFails : Bool
  guildInsertFails : Bool
  finalizeFails : Bool
deriving DecidableEq

/-- A `ScanErr` in which every statement succeeds. -/
def noScanErr : ScanErr := ⟨false, false, false, false, false, false⟩

/-- `scanPlayerGuild`: fetch the guild; on `null` upsert the player into
`players_no_guild` and return; otherwise delete any `players_no_guild`
row, reconcile the old membership, and upsert the guild.  The whole body
is wrapped in `try/catch`, so a rejection anywhere is swallowed; the
returned boolean records whether the catch block ran. -/
def scanPlayerGuild (uuid : String) (e : ScanErr)
    (fr : HttpResult GuildResponse) (t tMs : Nat)
    (s : Store) (st : Stats) : Store × Stats × Bool :=
  match fetchGuildByUUID fr tMs st with
  | (Except.error _, st1) => (s, st1, true)
  | (Except.ok none, st1) =>
      let s1 := if e.noGuildInsertFails then s
                else { s with players_no_guild :=
                        upsertNoGuildRow s.players_no_guild uuid t }
      (s1, st1, false)
  | (Except.ok (some g), st1) =>
      let s1 := if e.noGuildDeleteFails then s
                else { s with players_no_guild :=
                        s.players_no_guild.filter (fun r => !(r.uuid == uuid)) }
      match removePlayerFromOldGuild e.rpogGetFails e.rpogDeleteFails uuid g._id s1 with
      | (s2, false) => (s2, st1, true)
      | (s2, true) =>
          match upsertGuildRun e.guildInsertFails e.finalizeFails g t tMs s2 st1 with
          | (s3, st2, ok) => (s3, st2, !ok)

/-- Externally visible side effects a handler or the sweeper can
produce: adding a task to the scan queue, invoking the remote fetcher
directly, and the sweeper's fixed inter-member delay. -/
inductive Effect where
  | queueAdd (uuid : String)
  | remoteFetch (uuid : String)
  | sleep (ms : Nat)
deriving DecidableEq

/-- Is this action an enqueue onto the scan queue? -/
def Effect.isQueueAdd : Effect → Bool
  | Effect.queueAdd _ => true
  | _ => false

/-- `POST /player` (store statements succeeding): normalize the uuid,
classify the player by which table holds a row, apply the TTL check
(`!last_scan || now() - last_scan > ttl`, with the zero timestamp acting
as the falsy sentinel), and either enqueue a scan or report a no-op.
Returns the store, the emitted actions, and the response message. -/
def postPlayer (ttl tNow : Nat) (body : Option String) (s : Store) :
    Store × List Effect × String :=
  match body with
  | none => (s, [], "Missing uuid in request body.")
  | some uuid =>
      let clean := stripHyphens uuid
      match findMember s clean with
      | some member =>
          if member.last_scan = 0 ∨ tNow - member.last_scan > ttl then
            (s, [Effect.queueAdd clean],
             "Queued guild scan for guild " ++ member.guild_id)
          else
            (s, [], "Guild recently scanned, no update needed.")
      | none =>
          match findNoGuild s clean with
          | some player =>
              if player.last_scan = 0 ∨ tNow - player.last_scan > ttl then
                (s, [Effect.queueAdd clean], "Queued player scan for " ++ clean)
              else
                (s, [], "Player recently scanned, no update needed.")
          | none =>
              let s1 := { s with players_no_guild :=
                            s.players_no_guild ++ [⟨clean, 0⟩] }
              (s1, [Effect.queueAdd clean], "New player added and queued for scan.")

/-- The `GET /stats` report of the variant that filters the raw
timestamp lists: total guilds counter, API calls in the last five
minutes, guild additions in the last sixty seconds, players tracked. -/
def statsEndpoint (st : Stats) (nowMs playersTracked : Nat) :
    Nat × Nat × Nat × Nat :=
  (st.totalGuildsTracked,
   (st.hypixelApiRequestTimestamps.filter (fun ts => nowMs - ts < 300000)).length,
   (st.guildsAddedTimestamps.filter (fun ts => nowMs - ts < 60000)).length,
   playersTracked)

/-- One profile of the skyblock profiles response: for each member uuid,
the optional `leveling.experience` value reachable under it. -/
structure Profile where
  members : List (String × Option ℚ)
deriving DecidableEq

/-- Body of the skyblock profiles response. -/
structure ProfilesResponse where
  success : Bool
  profiles : Option (List Profile)
deriving DecidableEq

/-- The experience value of one profile for the scanned uuid, when the
whole optional-chaining path is present. -/
def profileXp (uuid : String) (p : Profile) : Option ℚ :=
  match p.members.find? (fun q => q.1 == uuid) with
  | some q => q.2
  | none => none

/-- The loop of `fetchHighestSBLevel`: starting from `highestLevel = 0`,
for each profile whose experience is present and truthy (nonzero),
derive `xp / 100` and keep it when it beats the current best. -/
def highestLoop (uuid : String) : List Profile → ℚ → ℚ
  | [], h => h
  | p :: ps, h =>
      match profileXp uuid p with
      | some xp =>
          if xp ≠ 0 then
            if h < xp / 100 then highestLoop uuid ps (xp / 100)
            else highestLoop uuid ps h
          else highestLoop uuid ps h
      | none => highestLoop uuid ps h

/-- `fetchHighestSBLevel`: its own `try/catch` turns a transport failure
into `null` (before the counter push); an arrived body is pushed, then
`!success || !profiles` yields `null`, and otherwise the loop's maximum
is returned. -/
def fetchHighestSBLevel (uuid : String) (resp : HttpResult ProfilesResponse)
    (tMs : Nat) (st : Stats) : Option ℚ × Stats :=
  match resp with
  | HttpResult.transportError => (none, st)
  | HttpResult.ok d =>
      let st1 := { st with hypixelApiRequestTimestamps :=
                    st.hypixelApiRequestTimestamps ++ [tMs] }
      if !d.success then (none, st1)
      else
        match d.profiles with
        | none => (none, st1)
        | some l => (some (highestLoop uuid l 0), st1)

/-- The derived levels contributed by a profile list: `xp / 100` for each
profile whose experience for this uuid is present and nonzero. -/
def derivedLevels (uuid : String) (l : List Profile) : List ℚ :=
  l.filterMap (fun p =>
    match profileXp uuid p with
    | some xp => if xp ≠ 0 then some (xp / 100) else none
    | none => none)

/-- The maximum derived level across all profiles (zero when none
contribute). -/
def maxDerivedLevel (uuid : String) (l : List Profile) : ℚ :=
  (derivedLevels uuid l).foldl max 0

/-- The sweeper's freshness check: `row && row.level_last_updated &&
(nowTime - row.level_last_updated) < 604800000` — the row must exist,
its `level_last_updated` must be truthy (nonzero), and younger than
seven days in milliseconds. -/
def freshCheck (s : Store) (uuid : String) (tMs : Nat) : Bool :=
  match findMember s uuid with
  | some r =>
      match r.level_last_updated with
      | some lu => lu != 0 && tMs - lu < 604800000
      | none => false
  | none => false

/-- `UPDATE members SET highest_sb_level = ?, level_last_updated = ?
WHERE uuid = ?`. -/
def setMemberLevel (s : Store) (uuid : String) (lvl : ℚ) (tMs : Nat) : Store :=
  { s with members := s.members.map (fun m =>
      if m.uuid == uuid then
        { m with highest_sb_level := some lvl, level_last_updated := some tMs }
      else m) }

/-- `updateMemberLevel`: skip when fresh; otherwise invoke the remote
fetcher directly (`fetchLvl` is that call's outcome) and persist a
non-null result.  Also returns the actions it performed. -/
def updateMemberLevel (uuid : String) (tMs : Nat) (lvl : Option ℚ)
    (s : Store) : Store × List Effect :=
  if freshCheck s uuid tMs then (s, [])
  else
    match lvl with
    | some l => (setMemberLevel s uuid l tMs, [Effect.remoteFetch uuid])
    | none => (s, [Effect.remoteFetch uuid])

/-- Modelled from the spec: `recalcGuildAverage` is invoked by the
sweeper but its definition is absent from the sources (only the call
site exists).  Following the spec's words — "after each member,
recompute and persist the owning guild's average metric across its
current members" — it sets the guild row's `avg_sb_level` to the mean of
the non-null `highest_sb_level` values of the guild's current members
(null when no member carries a value). -/
def guildMetricVals (s : Store) (gid : String) : List ℚ :=
  (s.members.filter (fun m => m.guild_id == gid)).filterMap
    (fun m => m.highest_sb_level)

/-- The average the spec asks the sweeper to persist (none when no
member of the guild carries a metric value). -/
def avgOf (s : Store) (gid : String) : Option ℚ :=
  let vals := guildMetricVals s gid
  if vals.length = 0 then none else some (vals.sum / (vals.length : ℚ))

/-- Modelled from the spec: persist `avgOf` onto the guild row (see
`guildMetricVals`). -/
def recalcGuildAverage (s : Store) (gid : String) : Store :=
  { s with guilds := s.guilds.map (fun g =>
      if g.guild_id == gid then { g with avg_sb_level := avgOf s gid } else g) }

/-- The store effect of processing one sweeper batch row: refresh the
member's level, then recompute the owning guild's average. -/
def sweepStore (fetchLvl : String → Option ℚ) (tMs : Nat) (s : Store)
    (row : MemberRow) : Store :=
  recalcGuildAverage (updateMemberLevel row.uuid tMs (fetchLvl row.uuid) s).1
    row.guild_id

/-- The actions of processing one sweeper batch row: whatever the level
refresh did, followed by the fixed one-second delay. -/
def sweepActions (fetchLvl : String → Option ℚ) (tMs : Nat) (s : Store)
    (row : MemberRow) : List Effect :=
  (updateMemberLevel row.uuid tMs (fetchLvl row.uuid) s).2 ++ [Effect.sleep 1000]

/-- The state after the sweeper has processed a prefix of its batch. -/
def processPrefix (fetchLvl : String → Option ℚ) (tMs : Nat) (s : Store)
    (rows : List MemberRow) : Store :=
  rows.foldl (fun acc row => sweepStore fetchLvl tMs acc row) s

/-- The sweeper's loop over its batch, collecting store and actions. -/
def runBatch (fetchLvl : String → Option ℚ) (tMs : Nat) :
    List MemberRow → Store → Store × List Effect
  | [], s => (s, [])
  | r :: rs, s =>
      let rest := runBatch fetchLvl tMs rs (sweepStore fetchLvl tMs s r)
      (rest.1, sweepActions fetchLvl tMs s r ++ rest.2)

/-- The batch ordering key: `ORDER BY level_last_updated ASC NULLS
FIRST`. -/
def levelOrd (a b : MemberRow) : Bool :=
  match a.level_last_updated, b.level_last_updated with
  | none, _ => true
  | some _, none => false
  | some x, some y => x ≤ y

/-- Stable insertion into a list sorted by `levelOrd`. -/
def insertSorted (r : MemberRow) : List MemberRow → List MemberRow
  | [] => [r]
  | x :: xs => if levelOrd r x then r :: x :: xs else x :: insertSorted r xs

/-- Sort the member rows by `levelOrd`. -/
def sortByLevel (l : List MemberRow) : List MemberRow :=
  l.foldr insertSorted []

/-- The sweeper's batch selection: member rows ordered by
`level_last_updated` ascending with nulls first, limited to 60. -/
def selectBatch (s : Store) : List MemberRow :=
  (sortByLevel s.members).take 60

/-- `processGuildLevels`: run the sweeper over its selected batch. -/
def processGuildLevels (fetchLvl : String → Option ℚ) (tMs : Nat)
    (s : Store) : Store × List Effect :=
  runBatch fetchLvl tMs (selectBatch s) s

/-- The queue interval of the one-per-minute configuration, in
milliseconds. -/
def queueIntervalMs : Nat := 60 * 1000

/-- The queue cap of the one-per-minute configuration. -/
def queueIntervalCap : Nat := 1

/-- Modelled from the spec: the Rate-Limited Scan Queue implementation
(the `p-queue` dependency) is not part of the repository sources — only
its configuration (concurrency 1, cap `K` per window `W`) appears.
Following the spec's words ("a hard cap of K executions per rolling
W-millisecond window", single worker), `startTime K W req i` is the
execution start time the queue assigns to the i-th submitted task: no
earlier than its submission time `req i`, than the previous task's start
(single worker, FIFO), and than `W` after the start of the task `K`
places back (the rolling-window cap). -/
def startTime (K W : Nat) (req : Nat → Nat) : Nat → Nat
  | 0 => req 0
  | i + 1 =>
      max (req (i + 1)) (max (startTime K W req i)
        (if h : 0 < K ∧ K ≤ i + 1 then startTime K W req (i + 1 - K) + W else 0))
termination_by i => i
decreasing_by
  all_goals omega

/-- Fresh `stats` object at process start. -/
def statsInit : Stats := ⟨0, [], [], []⟩

/-- An empty store. -/
def emptyStore : Store := ⟨[], [], [], []⟩

/-- A store in which player `u1` is recorded as a member of guild `g1`. -/
def c1Store : Store := ⟨[], [⟨"u1", "g1", "MEM", 5, none, none⟩], [], []⟩

/-- Claim C1: after any completed scan, a player appears in at most one
of the member and unresolved-player tables; a no-guild scan removes the
member row.  The code evaluated at the failing input: a completed
no-guild scan (success with no guild payload, every statement
succeeding) of a player holding a member row upserts the player into
`players_no_guild` but never deletes the member row, leaving the player
in both tables. -/
theorem C1_noGuild_scan_leaves_member_row :
    memberExists (scanPlayerGuild "u1" noScanErr (HttpResult.ok ⟨true, none⟩)
      100 100000 c1Store statsInit).1 "u1" = true
    ∧ noGuildExists (scanPlayerGuild "u1" noScanErr (HttpResult.ok ⟨true, none⟩)
      100 100000 c1Store statsInit).1 "u1" = true
    ∧ (scanPlayerGuild "u1" noScanErr (HttpResult.ok ⟨true, none⟩)
      100 100000 c1Store statsInit).2.2 = false := by
  decide

/-- Claim C3 (counterexample): a transport-level fetch failure does not
increment the API-call counter, because the push onto the timestamp list
sits after the awaited request and is skipped when the request throws. -/
theorem C3_transport_failure_misses_increment :
    ¬ (apiCallCount (fetchGuildByUUID
          (HttpResult.transportError : HttpResult GuildResponse) 7 statsInit).2
        = apiCallCount statsInit + 1) := by
  decide

/-- Claim C3 (amended): each fetch invocation increments the API-call
counter exactly once when the HTTP response arrives — success with a
payload, business-level absence, or a non-success body — and zero times
when the request fails at the transport level. -/
theorem C3_api_counter_increment (fr : HttpResult GuildResponse)
    (pr : HttpResult ProfilesResponse) (uuid : String) (t1 t2 : Nat)
    (st1 st2 : Stats) :
    apiCallCount (fetchGuildByUUID fr t1 st1).2
        = apiCallCount st1 + apiIncrements fr
    ∧ apiCallCount (fetchHighestSBLevel uuid pr t2 st2).2
        = apiCallCount st2 + apiIncrements pr := by
  constructor
  · cases fr with
    | transportError => simp [fetchGuildByUUID, apiIncrements]
    | ok d =>
        rcases d with ⟨su, g⟩
        cases g <;> cases su <;>
          simp [fetchGuildByUUID, apiIncrements, apiCallCount]
  · cases pr with
    | transportError => simp [fetchHighestSBLevel, apiIncrements]
    | ok d =>
        rcases d with ⟨su, profs⟩
        cases profs <;> cases su <;>
          simp [fetchHighestSBLevel, apiIncrements, apiCallCount]

/-- Claim C4: the code evaluated at the failing input.  A never-seen
player is submitted and the queued scan resolves to no guild; the player
lands in `players_no_guild`, but `GET /unguilded` reads the separate
`unguilded_players` table, which no code path ever writes, so its
response stays empty and does not include the identifier. -/
theorem C4_unguilded_endpoint_misses_scanned_player :
    getUnguilded (scanPlayerGuild "abc" noScanErr (HttpResult.ok ⟨true, none⟩)
        1000 1000000
        (postPlayer 604800 1000 (some "abc") emptyStore).1 statsInit).1 = []
    ∧ noGuildExists (scanPlayerGuild "abc" noScanErr (HttpResult.ok ⟨true, none⟩)
        1000 1000000
        (postPlayer 604800 1000 (some "abc") emptyStore).1 statsInit).1 "abc"
      = true := by
  decide

/-- A scan in which the guild-row insert of `upsertGuild` rejects. -/
def c7Err : ScanErr := ⟨false, false, false, false, true, false⟩

/-- A store in which `u1` is recorded as having no guild. -/
def c7Store : Store := ⟨[], [], [⟨"u1", 50⟩], []⟩

/-- A guild payload for the C7 scenario. -/
def c7Guild : Guild := ⟨"g9", "GuildNine", none, []⟩

/-- Claim C7 (counterexample): a scan of `u1` fetches a guild, deletes
`u1` from `players_no_guild`, and then fails inside `upsertGuild`; the
error is caught at the scan boundary, yet the prior cache state is not
restored — the `players_no_guild` row is gone. -/
theorem C7_midscan_failure_mutates_state :
    (scanPlayerGuild "u1" c7Err (HttpResult.ok ⟨true, some c7Guild⟩)
        100 1000 c7Store statsInit).2.2 = true
    ∧ (scanPlayerGuild "u1" c7Err (HttpResult.ok ⟨true, some c7Guild⟩)
        100 1000 c7Store statsInit).1 ≠ c7Store := by
  decide

/-- Claim C7 (amended): errors are caught and swallowed at the
scan-execution boundary, and when the fetch itself fails the prior cache
state — including every last-scan timestamp — and the stats are
unchanged; a store-step failure after a successful fetch, however, keeps
the effects of the steps already completed. -/
theorem C7_fetch_failure_leaves_state (uuid : String) (e : ScanErr)
    (t tMs : Nat) (s : Store) (st : Stats) :
    scanPlayerGuild uuid e (HttpResult.transportError) t tMs s st
      = (s, st, true) := rfl

/-- A store holding one member (never level-scanned) of guild `g1`. -/
def c5Store : Store :=
  ⟨[⟨"g1", "G", "", 0, none⟩], [⟨"u1", "g1", "MEM", 5, none, none⟩], [], []⟩

/-- A secondary-metric fetch outcome that always fails or finds nothing. -/
def c5Fetch : String → Option ℚ := fun _ => none

/-- Claim C5 (counterexample): on a store with one stale member, one
sweeper pass invokes the Remote Fetcher directly and adds nothing to the
scan queue — so the fetch happens outside any queue task. -/
theorem C5_sweeper_fetches_outside_queue :
    (processGuildLevels c5Fetch 0 c5Store).2
        = [Effect.remoteFetch "u1", Effect.sleep 1000]
    ∧ ((processGuildLevels c5Fetch 0 c5Store).2.all
        fun a => !a.isQueueAdd) = true := by
  decide

/-- The per-member level refresh emits only direct fetch actions, never
a queue submission. -/
theorem updateMemberLevel_no_enqueue (uuid : String) (tMs : Nat)
    (lvl : Option ℚ) (s : Store) :
    ((updateMemberLevel uuid tMs lvl s).2.all fun a => !a.isQueueAdd) = true := by
  unfold updateMemberLevel
  split
  · rfl
  · cases lvl <;> rfl

/-- The sweeper loop over any batch emits no queue submission. -/
theorem runBatch_no_enqueue (fetchLvl : String → Option ℚ) (tMs : Nat) :
    ∀ (rows : List MemberRow) (s : Store),
      ((runBatch fetchLvl tMs rows s).2.all fun a => !a.isQueueAdd) = true := by
  intro rows
  induction rows with
  | nil => intro s; rfl
  | cons r rs ih =>
      intro s
      simp only [runBatch, List.all_append, sweepActions]
      rw [updateMemberLevel_no_enqueue, ih]
      rfl

/-- Claim C5 (amended): the Periodic Sweeper performs its per-member
secondary-metric refreshes by invoking the Remote Fetcher directly —
never as tasks of the rate-limited scan queue; it submits nothing to the
queue and instead throttles itself with a fixed one-second delay between
members. -/
theorem C5_sweeper_never_enqueues (fetchLvl : String → Option ℚ)
    (tMs : Nat) (s : Store) :
    ((processGuildLevels fetchLvl tMs s).2.all fun a => !a.isQueueAdd) = true := by
  unfold processGuildLevels
  exact runBatch_no_enqueue fetchLvl tMs (selectBatch s) s

/-- The guild-row upsert grows the table by one exactly when the guild
identifier was not yet present. -/
theorem upsertGuildRow_length (gs : List GuildRow) (g : Guild) (t : Nat) :
    (upsertGuildRow gs g t).length
      = gs.length + (if gs.any (fun r => r.guild_id == g._id) then 0 else 1) := by
  unfold upsertGuildRow
  split <;> simp_all

/-- Claim C10: every successful `upsertGuild` invocation increments the
in-memory `totalGuildsTracked` counter by one and appends one timestamp
to the guild-additions window, even when the guild row already exists
and is merely updated (the row count then stays unchanged); `GET /stats`
reports that counter verbatim, so it counts successful guild upserts,
not distinct guilds. -/
theorem C10_upsert_counts_scans (gF fF : Bool) (g : Guild) (t tMs : Nat)
    (s : Store) (st : Stats) (nowMs pt : Nat)
    (h : (upsertGuildRun gF fF g t tMs s st).2.2 = true) :
    (upsertGuildRun gF fF g t tMs s st).2.1.totalGuildsTracked
        = st.totalGuildsTracked + 1
    ∧ (upsertGuildRun gF fF g t tMs s st).2.1.guildsAddedTimestamps
        = st.guildsAddedTimestamps ++ [tMs]
    ∧ (upsertGuildRun gF fF g t tMs s st).1.guilds.length
        = s.guilds.length
          + (if s.guilds.any (fun r => r.guild_id == g._id) then 0 else 1)
    ∧ (statsEndpoint (upsertGuildRun gF fF g t tMs s st).2.1 nowMs pt).1
        = st.totalGuildsTracked + 1 := by
  cases gF with
  | true => simp [upsertGuildRun] at h
  | false =>
      cases fF with
      | true => simp [upsertGuildRun] at h
      | false =>
          refine ⟨rfl, rfl, ?_, rfl⟩
          simp only [upsertGuildRun]
          exact upsertGuildRow_length s.guilds g t

/-- The C10 guild payload: same identifier as the pre-existing row. -/
def c10Guild : Guild := ⟨"g1", "GuildOne", some "TAG", [⟨"u1", "MEM"⟩]⟩

/-- A store already tracking guild `g1`. -/
def c10Store : Store := ⟨[⟨"g1", "Old", "T", 1, none⟩], [], [], []⟩

/-- Witness for C10: a successful upsert of an already-tracked guild
still bumps the counter and appends a timestamp while the row count
stays at one. -/
theorem C10_upsert_counts_scans_witness :
    (upsertGuildRun false false c10Guild 5 500 c10Store statsInit).2.2 = true
    ∧ ((upsertGuildRun false false c10Guild 5 500 c10Store statsInit).2.1.totalGuildsTracked
          = statsInit.totalGuildsTracked + 1
      ∧ (upsertGuildRun false false c10Guild 5 500 c10Store statsInit).2.1.guildsAddedTimestamps
          = statsInit.guildsAddedTimestamps ++ [500]
      ∧ (upsertGuildRun false false c10Guild 5 500 c10Store statsInit).1.guilds.length
          = c10Store.guilds.length
            + (if c10Store.guilds.any (fun r => r.guild_id == c10Guild._id) then 0 else 1)
      ∧ (statsEndpoint (upsertGuildRun false false c10Guild 5 500 c10Store statsInit).2.1 9999 3).1
          = statsInit.totalGuildsTracked + 1) :=
  ⟨by decide,
   C10_upsert_counts_scans false false c10Guild 5 500 c10Store statsInit 9999 3 (by decide)⟩

/-- Claim C8: when the row `POST /player` consults — the member row if
one exists, otherwise the unresolved-player row — carries a nonzero
last-scan timestamp within the TTL, the handler enqueues no scan,
mutates nothing, and answers with the corresponding recently-scanned
message. -/
theorem C8_fresh_scan_noop (ttl tNow : Nat) (uuid : String) (s : Store) :
    (∀ m, findMember s (stripHyphens uuid) = some m → m.last_scan ≠ 0 →
        tNow - m.last_scan ≤ ttl →
        postPlayer ttl tNow (some uuid) s
          = (s, [], "Guild recently scanned, no update needed."))
    ∧ (findMember s (stripHyphens uuid) = none →
        ∀ p, findNoGuild s (stripHyphens uuid) = some p → p.last_scan ≠ 0 →
        tNow - p.last_scan ≤ ttl →
        postPlayer ttl tNow (some uuid) s
          = (s, [], "Player recently scanned, no update needed.")) := by
  constructor
  · intro m hm h0 httl
    simp only [postPlayer, hm]
    rw [if_neg]
    omega
  · intro hnone p hp h0 httl
    simp only [postPlayer, hnone, hp]
    rw [if_neg]
    omega

/-- A store with a freshly scanned member `u1` and a freshly scanned
unresolved player `u2`. -/
def c8Store : Store :=
  ⟨[], [⟨"u1", "g1", "MEM", 10, none, none⟩], [⟨"u2", 10⟩], []⟩

/-- Witness for C8: at TTL 100 and current time 20, resubmitting either
a fresh member or a fresh unresolved player is a pure no-op with the
matching message. -/
theorem C8_fresh_scan_noop_witness :
    (findMember c8Store (stripHyphens "u1")
        = some ⟨"u1", "g1", "MEM", 10, none, none⟩)
    ∧ postPlayer 100 20 (some "u1") c8Store
        = (c8Store, [], "Guild recently scanned, no update needed.")
    ∧ postPlayer 100 20 (some "u2") c8Store
        = (c8Store, [], "Player recently scanned, no update needed.") :=
  ⟨by decide,
   (C8_fresh_scan_noop 100 20 "u1" c8Store).1 ⟨"u1", "g1", "MEM", 10, none, none⟩
     (by decide) (by decide) (by decide),
   (C8_fresh_scan_noop 100 20 "u2" c8Store).2 (by decide) ⟨"u2", 10⟩
     (by decide) (by decide) (by decide)⟩

/-- The loop's conditional update is exactly a binary max. -/
theorem ite_lt_eq_max (a x : ℚ) : (if a < x then x else a) = max a x := by
  rcases le_or_lt x a with hle | hlt
  · rw [if_neg (not_lt.mpr hle), max_eq_left hle]
  · rw [if_pos hlt, max_eq_right hlt.le]

/-- The level loop computes a running maximum over the derived levels. -/
theorem highestLoop_eq_foldl (uuid : String) (l : List Profile) :
    ∀ a : ℚ, highestLoop uuid l a = (derivedLevels uuid l).foldl max a := by
  induction l with
  | nil => intro a; rfl
  | cons p ps ih =>
      intro a
      cases hxp : profileXp uuid p with
      | none =>
          simp only [highestLoop, hxp, derivedLevels, List.filterMap_cons]
          simpa [derivedLevels] using ih a
      | some xp =>
          by_cases h0 : xp = 0
          · simp only [highestLoop, hxp, h0, derivedLevels, List.filterMap_cons]
            simpa [derivedLevels] using ih a
          · simp only [highestLoop, hxp, derivedLevels, List.filterMap_cons,
              h0, if_pos (show xp ≠ 0 from h0), ne_eq, not_false_iff]
            rw [show (if a < xp / 100 then highestLoop uuid ps (xp / 100)
                  else highestLoop uuid ps a)
                = highestLoop uuid ps (if a < xp / 100 then xp / 100 else a) by
                split <;> rfl]
            rw [ite_lt_eq_max, ih (max a (xp / 100))]
            simp [derivedLevels, List.foldl_cons]

/-- The seed is a lower bound of a `foldl max`. -/
theorem seed_le_foldl_max (l : List ℚ) : ∀ a : ℚ, a ≤ l.foldl max a := by
  induction l with
  | nil => intro a; exact le_refl a
  | cons x xs ih => intro a; exact le_trans (le_max_left a x) (ih (max a x))

/-- Every element is bounded by a `foldl max`. -/
theorem mem_le_foldl_max (l : List ℚ) :
    ∀ (a x : ℚ), x ∈ l → x ≤ l.foldl max a := by
  induction l with
  | nil => intro a x hx; cases hx
  | cons y ys ih =>
      intro a x hx
      rcases List.mem_cons.mp hx with rfl | hx
      · exact le_trans (le_max_right a x) (seed_le_foldl_max ys (max a x))
      · exact ih (max a y) x hx

/-- Claim C9: `fetchHighestSBLevel` returns absent when the response
reports no profiles, and for a successful response carrying profiles it
returns the maximum derived level across all of them: the value
dominates every profile's derived level and is nonnegative. -/
theorem C9_secondary_metric_max (uuid : String) (d : ProfilesResponse)
    (tMs : Nat) (st : Stats) :
    (d.profiles = none →
        (fetchHighestSBLevel uuid (HttpResult.ok d) tMs st).1 = none)
    ∧ (∀ l, d.success = true → d.profiles = some l →
        (fetchHighestSBLevel uuid (HttpResult.ok d) tMs st).1
            = some (maxDerivedLevel uuid l)
        ∧ 0 ≤ maxDerivedLevel uuid l
        ∧ ∀ x ∈ derivedLevels uuid l, x ≤ maxDerivedLevel uuid l) := by
  constructor
  · intro hp
    cases hs : d.success <;> simp [fetchHighestSBLevel, hp, hs]
  · intro l hs hp
    refine ⟨?_, ?_, ?_⟩
    · simp [fetchHighestSBLevel, hs, hp, maxDerivedLevel, highestLoop_eq_foldl]
    · exact seed_le_foldl_max (derivedLevels uuid l) 0
    · intro x hx
      exact mem_le_foldl_max (derivedLevels uuid l) 0 x hx

/-- The C9 witness profile list: two profiles with experience 200 and
500 for the scanned player. -/
def c9Profiles : List Profile := [⟨[("u", some 200)]⟩, ⟨[("u", some 500)]⟩]

/-- Witness for C9: the absent branch at a response with no profiles,
and the maximum branch at a concrete two-profile response. -/
theorem C9_secondary_metric_max_witness :
    (fetchHighestSBLevel "u" (HttpResult.ok ⟨true, none⟩) 0 statsInit).1 = none
    ∧ (fetchHighestSBLevel "u" (HttpResult.ok ⟨true, some c9Profiles⟩) 0 statsInit).1
        = some (maxDerivedLevel "u" c9Profiles) :=
  ⟨(C9_secondary_metric_max "u" ⟨true, none⟩ 0 statsInit).1 rfl,
   ((C9_secondary_metric_max "u" ⟨true, some c9Profiles⟩ 0 statsInit).2
      c9Profiles rfl rfl).1⟩

/-- Recomputing a guild's average touches no member row. -/
theorem recalc_members_eq (s : Store) (gid : String) :
    (recalcGuildAverage s gid).members = s.members := rfl

/-- The average is computed from the member rows only, so recomputing
and persisting it does not change its value. -/
theorem avgOf_recalc (s : Store) (gid gid2 : String) :
    avgOf (recalcGuildAverage s gid) gid2 = avgOf s gid2 := rfl

/-- After `recalcGuildAverage s gid`, every guild row carrying `gid`
holds exactly the average over the current members. -/
theorem recalc_persists_avg (s : Store) (gid : String) :
    ∀ g ∈ (recalcGuildAverage s gid).guilds, g.guild_id = gid →
      g.avg_sb_level = avgOf (recalcGuildAverage s gid) gid := by
  intro g hg hid
  rw [avgOf_recalc]
  simp only [recalcGuildAverage, List.mem_map] at hg
  obtain ⟨g0, hg0, hfg⟩ := hg
  by_cases hb : g0.guild_id = gid
  · rw [if_pos (beq_iff_eq.mpr hb)] at hfg
    rw [← hfg]
  · rw [if_neg (by simpa using hb)] at hfg
    rw [← hfg] at hid
    exact absurd hid hb

/-- Claim C6: after the Periodic Sweeper processes each member of its
batch, the owning guild's persisted average equals the recomputed
average of the secondary metric across that guild's current members at
that point. -/
theorem C6_sweeper_recomputes_average (fetchLvl : String → Option ℚ)
    (tMs : Nat) (s : Store) (rows : List MemberRow) (i : Nat)
    (h : i < rows.length) :
    ∀ g ∈ (processPrefix fetchLvl tMs s (rows.take (i + 1))).guilds,
      g.guild_id = (rows.get ⟨i, h⟩).guild_id →
      g.avg_sb_level
        = avgOf (processPrefix fetchLvl tMs s (rows.take (i + 1))) g.guild_id := by
  intro g hg hid
  have htake : rows.take (i + 1) = rows.take i ++ [rows.get ⟨i, h⟩] := by
    rw [List.take_succ]
    congr 1
    rw [List.getElem?_eq_getElem h]
    rfl
  rw [htake] at hg ⊢
  simp only [processPrefix, List.foldl_append, List.foldl_cons, List.foldl_nil] at hg ⊢
  rw [hid]
  exact recalc_persists_avg _ _ g hg hid

/-- The C6 witness batch: the single member of guild `g1`. -/
def c6Rows : List MemberRow := [⟨"u1", "g1", "MEM", 5, none, none⟩]

/-- The C6 witness store. -/
def c6Store : Store := ⟨[⟨"g1", "G", "", 0, none⟩], c6Rows, [], []⟩

/-- The C6 witness fetch outcome: the metric fetch finds nothing. -/
def c6Fetch : String → Option ℚ := fun _ => none

/-- The guild row after the witness sweep step: no member carries a
metric value, so the persisted average is null. -/
def c6G : GuildRow := ⟨"g1", "G", "", 0, none⟩

/-- Witness for C6: after the sweeper processes the single member, the
guild row persists exactly the average over its current members. -/
theorem C6_sweeper_recomputes_average_witness :
    0 < c6Rows.length
    ∧ c6G ∈ (processPrefix c6Fetch 0 c6Store (c6Rows.take (0 + 1))).guilds
    ∧ c6G.avg_sb_level
        = avgOf (processPrefix c6Fetch 0 c6Store (c6Rows.take (0 + 1))) c6G.guild_id :=
  ⟨by decide, by decide,
   C6_sweeper_recomputes_average c6Fetch 0 c6Store c6Rows 0 (by decide) c6G
     (by decide) (by decide)⟩

/-- Unfolding equation of `startTime` at a successor index. -/
theorem startTime_succ (K W : Nat) (req : Nat → Nat) (i : Nat) :
    startTime K W req (i + 1)
      = max (req (i + 1)) (max (startTime K W req i)
          (if 0 < K ∧ K ≤ i + 1 then startTime K W req (i + 1 - K) + W else 0)) := by
  rw [startTime]
  simp only [dite_eq_ite]

/-- Start times never decrease from one task to the next. -/
theorem startTime_le_succ (K W : Nat) (req : Nat → Nat) (i : Nat) :
    startTime K W req i ≤ startTime K W req (i + 1) := by
  rw [startTime_succ]
  exact le_max_of_le_right (le_max_left _ _)

/-- Start times are monotone in the task index. -/
theorem startTime_mono (K W : Nat) (req : Nat → Nat) :
    ∀ {i j : Nat}, i ≤ j → startTime K W req i ≤ startTime K W req j := by
  intro i j hij
  induction hij with
  | refl => exact le_refl _
  | step _ ih => exact le_trans ih (startTime_le_succ K W req _)

/-- The rolling-window constraint: a task starts at least `W` after the
task `K` places before it. -/
theorem startTime_window (K W : Nat) (req : Nat → Nat) (hK : 0 < K) :
    ∀ {i : Nat}, K ≤ i →
      startTime K W req (i - K) + W ≤ startTime K W req i := by
  intro i hKi
  obtain ⟨j, rfl⟩ : ∃ j, i = j + 1 := ⟨i - 1, by omega⟩
  rw [startTime_succ, if_pos ⟨hK, hKi⟩]
  exact le_max_of_le_right (le_max_right _ _)

/-- Tasks at least `K` indices apart start at least `W` apart. -/
theorem startTime_gap (K W : Nat) (req : Nat → Nat) (hK : 0 < K)
    {i j : Nat} (hij : i + K ≤ j) :
    startTime K W req i + W ≤ startTime K W req j := by
  have h1 : K ≤ j := le_trans (Nat.le_add_left K i) hij
  have h2 : i ≤ j - K := by omega
  exact le_trans (add_le_add_right (startTime_mono K W req h2) W)
    (startTime_window K W req hK h1)

/-- Claim C2: for every sequence of submitted tasks, over any sliding
window of length `W` milliseconds, at most `K` queue executions start —
regardless of burst size. -/
theorem C2_rate_window_cap (K W : Nat) (hK : 0 < K) (req : Nat → Nat)
    (t n : Nat) :
    ((Finset.range n).filter (fun i =>
        t ≤ startTime K W req i ∧ startTime K W req i < t + W)).card ≤ K := by
  set S := (Finset.range n).filter (fun i =>
      t ≤ startTime K W req i ∧ startTime K W req i < t + W) with hSdef
  rcases S.eq_empty_or_nonempty with he | hne
  · rw [he]
    simp
  · have hsub : S ⊆ Finset.Ico (S.min' hne) (S.min' hne + K) := by
      intro i hi
      rw [Finset.mem_Ico]
      refine ⟨S.min'_le i hi, ?_⟩
      by_contra hcon
      push_neg at hcon
      have h0mem := S.min'_mem hne
      have h0 := (Finset.mem_filter.mp h0mem).2
      have hi2 := (Finset.mem_filter.mp hi).2
      have hgap := startTime_gap K W req hK hcon
      omega
    calc S.card ≤ (Finset.Ico (S.min' hne) (S.min' hne + K)).card :=
          Finset.card_le_card hsub
      _ = K := by rw [Nat.card_Ico]; omega

/-- Witness for C2: at the repository's one-per-minute configuration,
any minute-long window over five immediately submitted tasks sees at
most one execution start. -/
theorem C2_rate_window_cap_witness :
    0 < queueIntervalCap
    ∧ ((Finset.range 5).filter (fun i =>
          0 ≤ startTime queueIntervalCap queueIntervalMs (fun _ => 0) i
          ∧ startTime queueIntervalCap queueIntervalMs (fun _ => 0) i
              < 0 + queueIntervalMs)).card ≤ queueIntervalCap :=
  ⟨by decide,
   C2_rate_window_cap queueIntervalCap queueIntervalMs (by decide)
     (fun _ => 0) 0 5⟩
